import Mathlib

/-!
Shallow embedding of `src/app/services/epic_games_service.py` and proofs of
the specification claims about it. Pure data transformations are translated
to Lean functions; the stateful agent is modelled by explicit state passing;
browser interactions are modelled by small-step environments and event traces.
-/

namespace EpicGamesService

/-- Modelled from the spec: the `models` module (pydantic classes `OrderItem`,
`Order`, `PromotionGame`) is not under `src/`; the record shapes follow the
spec's data model (§3) and the field accesses in the source. An order item
carries the storefront identifier (source field `namespace`, a Lean keyword,
rendered here as `namespaceId`). -/
structure OrderItem where
  namespaceId : String
deriving DecidableEq, Repr

/-- Modelled from the spec: an order record with `orderType` and `items` (§3, §6). -/
structure Order where
  orderType : String
  items : List OrderItem
deriving DecidableEq, Repr

/-- Modelled from the spec: a catalog promotion with identifier, title and
resolved URL (§3); fields match the accesses `p.namespace`, `p.title`, `p.url`
in the source. -/
structure PromotionGame where
  namespaceId : String
  title : String
  url : String
deriving DecidableEq, Repr

/-- The item filter in `_sync_order_history`:
`if not item.namespace or len(item.namespace) != 32: continue`. -/
def keepItem (it : OrderItem) : Bool :=
  !(it.namespaceId == "") && (it.namespaceId.length == 32)

/-- The per-order contribution in `_sync_order_history`: orders whose
`orderType != "PURCHASE"` are skipped; otherwise the valid items are kept. -/
def orderItemsKept (o : Order) : List OrderItem :=
  if o.orderType == "PURCHASE" then o.items.filter keepItem else []

/-- The `completed_orders` list built by the loop of `_sync_order_history`
from the parsed order history. -/
def ledgerOf (history : List Order) : List OrderItem :=
  (history.map orderItemsKept).flatten

/-- The mutable fields of `EpicAgent` used by the reconciliation methods,
plus an instrumentation counter for order-history fetches. -/
structure AgentState where
  orders : List OrderItem
  namespaces : List String
  promotions : List PromotionGame
  fetches : Nat
deriving Repr

/-- State after `EpicAgent.__init__`: empty caches. -/
def initState : AgentState := ⟨[], [], [], 0⟩

/-- Method `_sync_order_history`: `if self._orders: return` (Python truthiness), else
navigate to the order-history endpoint (counted as one fetch) and store the
filtered items. -/
def syncOrderHistory (history : List Order) (s : AgentState) : AgentState :=
  if s.orders.isEmpty then
    { s with orders := ledgerOf history, fetches := s.fetches + 1 }
  else s

/-- Method `_check_orders`: sync the order history, compute
`self._namespaces = self._namespaces or [order.namespace for order in self._orders]`
(Python `or`: the old list is kept only when non-empty), then rebuild
`self._promotions` from a fresh catalog fetch filtered against the namespaces. -/
def checkOrders (history : List Order) (catalog : List PromotionGame)
    (s : AgentState) : AgentState :=
  let s1 := syncOrderHistory history s
  let ns := if s1.namespaces.isEmpty then s1.orders.map (·.namespaceId)
            else s1.namespaces
  { s1 with
    namespaces := ns
    promotions := catalog.filter (fun p => !(ns.contains p.namespaceId)) }

/-- The identifiers owned in a run: the ledger projected to namespaces. -/
def runLedger (history : List Order) : List String :=
  (ledgerOf history).map (·.namespaceId)

theorem keepItem_iff (it : OrderItem) :
    keepItem it = true ↔ it.namespaceId.length = 32 := by
  unfold keepItem
  constructor
  · intro h
    simp only [Bool.and_eq_true, beq_iff_eq, Bool.not_eq_true'] at h
    exact h.2
  · intro h
    have hne : ¬ (it.namespaceId == "") = true := by
      intro hcon
      rw [beq_iff_eq] at hcon
      rw [hcon] at h
      simp [String.length] at h
    simp only [Bool.and_eq_true, beq_iff_eq]
    exact ⟨by simpa using hne, h⟩

theorem mem_ledgerOf (history : List Order) (it : OrderItem) :
    it ∈ ledgerOf history ↔
      ∃ o ∈ history, o.orderType = "PURCHASE" ∧ it ∈ o.items ∧
        it.namespaceId.length = 32 := by
  unfold ledgerOf
  rw [List.mem_flatten]
  constructor
  · rintro ⟨l, hl, hit⟩
    rw [List.mem_map] at hl
    obtain ⟨o, ho, rfl⟩ := hl
    unfold orderItemsKept at hit
    by_cases hp : o.orderType == "PURCHASE"
    · rw [if_pos hp, List.mem_filter] at hit
      exact ⟨o, ho, by simpa using hp, hit.1, (keepItem_iff it).mp hit.2⟩
    · rw [if_neg hp] at hit
      exact absurd hit (List.not_mem_nil it)
  · rintro ⟨o, ho, hp, hit, hlen⟩
    refine ⟨orderItemsKept o, List.mem_map_of_mem _ ho, ?_⟩
    unfold orderItemsKept
    rw [if_pos (by simpa using hp), List.mem_filter]
    exact ⟨hit, (keepItem_iff it).mpr hlen⟩

/-- C3: an order item enters the ledger iff it comes from a `PURCHASE`-type
order and its identifier has length exactly 32; all other items are excluded. -/
theorem ledger_membership_characterization (history : List Order) (it : OrderItem) :
    it ∈ ledgerOf history ↔
      ∃ o ∈ history, o.orderType = "PURCHASE" ∧ it ∈ o.items ∧
        it.namespaceId.length = 32 :=
  mem_ledgerOf history it

theorem checkOrders_from_init (history : List Order) (catalog : List PromotionGame) :
    checkOrders history catalog initState =
      { orders := ledgerOf history
        namespaces := runLedger history
        promotions := catalog.filter
          (fun p => !((runLedger history).contains p.namespaceId))
        fetches := 1 } := by
  unfold checkOrders syncOrderHistory initState runLedger
  simp

theorem namespaces_stable (history : List Order) (catalog : List PromotionGame)
    (s : AgentState) (horders : s.orders = ledgerOf history)
    (hns : s.namespaces = runLedger history) :
    (checkOrders history catalog s).namespaces = runLedger history ∧
    (checkOrders history catalog s).orders = ledgerOf history ∧
    (checkOrders history catalog s).promotions =
      catalog.filter (fun p => !((runLedger history).contains p.namespaceId)) := by
  have hmap : s.namespaces = s.orders.map (·.namespaceId) := by
    rw [horders, hns]; rfl
  by_cases he : s.orders.isEmpty
  · have ho : s.orders = [] := List.isEmpty_iff.mp he
    have hled : ledgerOf history = [] := by rw [← horders, ho]
    have hns0 : s.namespaces = [] := by rw [hmap, ho]; rfl
    have hrl : runLedger history = [] := by
      unfold runLedger; rw [hled]; rfl
    unfold checkOrders syncOrderHistory
    simp [he, hns0, hrl, hled]
  · have hs1 : syncOrderHistory history s = s := by
      unfold syncOrderHistory
      rw [if_neg he]
    have hnse : s.namespaces.isEmpty = false := by
      rw [hmap]
      cases hcase : s.orders with
      | nil => exact absurd (by rw [hcase]; rfl) he
      | cons a l => rfl
    unfold checkOrders
    rw [hs1]
    simp [hnse, hns, horders]
    refine ⟨fun _ => rfl, ?_⟩
    have hif : (if runLedger history = [] then
        List.map (fun x => x.namespaceId) (ledgerOf history)
        else runLedger history) = runLedger history := by
      split <;> rfl
    rw [hif]

theorem mem_filter_ledger (catalog : List PromotionGame) (ns : List String)
    (p : PromotionGame) :
    p ∈ catalog.filter (fun q => !(ns.contains q.namespaceId)) ↔
      p ∈ catalog ∧ p.namespaceId ∉ ns := by
  rw [List.mem_filter]
  constructor
  · rintro ⟨h1, h2⟩
    refine ⟨h1, fun hmem => ?_⟩
    have helem := List.elem_iff.mpr hmem
    rw [show ns.contains p.namespaceId = ns.elem p.namespaceId from rfl,
      helem] at h2
    exact absurd h2 (by decide)
  · rintro ⟨h1, h2⟩
    refine ⟨h1, ?_⟩
    have helem : ns.elem p.namespaceId = false := by
      cases hc : ns.elem p.namespaceId
      · rfl
      · exact absurd (List.elem_iff.mp hc) h2
    rw [show ns.contains p.namespaceId = ns.elem p.namespaceId from rfl, helem]
    rfl

/-- C2: starting from a fresh agent, each `_check_orders` call computes the
outstanding list as exactly the catalog promotions whose identifier is absent
from the run's ledger, and the list is recomputed fresh on each call: the
second call's result depends only on the second catalog, never on the first
call's memoized outstanding list. -/
theorem outstanding_is_fresh_set_difference (history : List Order)
    (c1 c2 : List PromotionGame) :
    (∀ p, p ∈ (checkOrders history c1 initState).promotions ↔
        p ∈ c1 ∧ p.namespaceId ∉ runLedger history) ∧
    (∀ p, p ∈ (checkOrders history c2
        (checkOrders history c1 initState)).promotions ↔
        p ∈ c2 ∧ p.namespaceId ∉ runLedger history) ∧
    (checkOrders history c2 (checkOrders history c1 initState)).promotions =
      c2.filter (fun p => !((runLedger history).contains p.namespaceId)) := by
  have h1 := checkOrders_from_init history c1
  have hstable := namespaces_stable history c2 (checkOrders history c1 initState)
    (by rw [h1]) (by rw [h1])
  refine ⟨?_, ?_, hstable.2.2⟩
  · intro p
    rw [h1]
    exact mem_filter_ledger c1 (runLedger history) p
  · intro p
    rw [hstable.2.2]
    exact mem_filter_ledger c2 (runLedger history) p

/-- A one-order history whose only order is a gift: it yields an empty ledger. -/
def giftHistory : List Order :=
  [⟨"GIFT", [⟨"0123456789abcdef0123456789abcdef"⟩]⟩]

/-- A one-order history with a valid purchase: it yields a non-empty ledger. -/
def purchaseHistory : List Order :=
  [⟨"PURCHASE", [⟨"0123456789abcdef0123456789abcdef"⟩]⟩]

/-- C8 counterexample: with a history whose ledger is empty (here: a single
gift order), the ledger is built by the first reconciliation call, yet the
second reconciliation call fetches the order history again (`if self._orders:`
is Python-falsy on an empty list), so the run performs 2 fetches, refuting
"fetched at most once per workflow run". -/
theorem order_history_refetched_on_empty_ledger :
    (checkOrders giftHistory [] (checkOrders giftHistory [] initState)).fetches
      = 2 ∧
    ¬ (checkOrders giftHistory []
        (checkOrders giftHistory [] initState)).fetches ≤ 1 := by
  constructor
  · rfl
  · decide

/-- C8 amended: the order history is fetched at most once per run provided the
first fetch yields a non-empty ledger; every subsequent reconciliation call
then reuses the cached order list and issues no further fetch. (When the
ledger comes out empty, each later call re-fetches, see the counterexample.) -/
theorem order_history_fetched_once_when_ledger_nonempty (history : List Order)
    (c1 c2 : List PromotionGame) (h : ledgerOf history ≠ []) :
    (checkOrders history c2 (checkOrders history c1 initState)).fetches = 1 := by
  have hs1o : (checkOrders history c1 initState).orders = ledgerOf history := by
    rw [checkOrders_from_init]
  have hne : (checkOrders history c1 initState).orders.isEmpty = false := by
    rw [hs1o]
    cases hc : ledgerOf history with
    | nil => exact absurd hc h
    | cons a l => rfl
  have hfet : (checkOrders history c1 initState).fetches = 1 := by
    rw [checkOrders_from_init]
  generalize hgen : checkOrders history c1 initState = s1 at hne hfet ⊢
  unfold checkOrders syncOrderHistory
  simp [hne, hfet]

theorem order_history_fetched_once_witness :
    (checkOrders purchaseHistory []
      (checkOrders purchaseHistory [] initState)).fetches = 1 :=
  order_history_fetched_once_when_ledger_nonempty purchaseHistory [] []
    (by decide)

/-- The nested `discountSetting` object of one promotional offer (§6). -/
structure DiscountSetting where
  discountPercentage : Int
deriving DecidableEq, Repr

/-- One entry of the inner `promotionalOffers` array (§6). -/
structure PromotionalOffer where
  discountSetting : DiscountSetting
deriving DecidableEq, Repr

/-- One entry of the outer `promotions.promotionalOffers` array: an object
holding an inner `promotionalOffers` array. -/
structure PromoTier where
  promotionalOffers : List PromotionalOffer
deriving DecidableEq, Repr

/-- The `promotions` field of one feed element. -/
structure PromotionsField where
  promotionalOffers : List PromoTier
deriving DecidableEq, Repr

/-- One entry of `offerMappings`; `pageSlug = none` models an absent key. -/
structure OfferMapping where
  pageSlug : Option String
deriving DecidableEq, Repr

/-- One element of the promotions feed (`data.Catalog.searchStore.elements`),
with `none` modelling absent JSON keys. -/
structure FeedElement where
  namespaceId : String
  title : String
  promotions : Option PromotionsField
  offerMappings : Option (List OfferMapping)
  productSlug : Option String
deriving DecidableEq, Repr

/-- Helper `is_discount_game`: under `suppress(KeyError, IndexError, TypeError)` it
reads `prot["promotions"]["promotionalOffers"][0]["promotionalOffers"]` and
returns True iff some entry there has `discountSetting.discountPercentage == 0`;
a failing access makes it return None (falsy). -/
def isDiscountGame (e : FeedElement) : Bool :=
  match e.promotions with
  | none => false
  | some pf =>
    match pf.promotionalOffers.head? with
    | none => false
    | some tier =>
      tier.promotionalOffers.any
        (fun o => o.discountSetting.discountPercentage == 0)

/-- Constant `URL_PRODUCT_PAGE` from the source. -/
def urlProductPage : String := "https://store.epicgames.com/en-US/p/"

/-- Python `str.rstrip('/')`: remove all trailing slashes. -/
def rstripSlash (s : String) : String :=
  ⟨(s.data.reverse.dropWhile (fun c => c == '/')).reverse⟩

/-- Url interpolation: the product-page base with trailing slashes stripped,
then a slash and the slug. -/
def buildProductUrl (slug : String) : String :=
  rstripSlash urlProductPage ++ "/" ++ slug

/-- The value of `e['offerMappings'][0]['pageSlug']` when every access
succeeds, `none` when a `KeyError`/`IndexError` would be raised. -/
def pageSlugOf (e : FeedElement) : Option String :=
  match e.offerMappings with
  | some (m :: _) => m.pageSlug
  | _ => none

/-- The `except (KeyError, IndexError)` fallback: `e.get("productSlug")` with
Python truthiness (an empty slug is falsy and the element is dropped). -/
def fallbackUrl (e : FeedElement) : Option String :=
  match e.productSlug with
  | some s => if s == "" then none else some (buildProductUrl s)
  | none => none

/-- The URL assignment of the loop body of `get_promotions`: try
`offerMappings[0].pageSlug`, fall back to `productSlug`, else drop. -/
def resolveUrl (e : FeedElement) : Option String :=
  match pageSlugOf e with
  | some slug => some (buildProductUrl slug)
  | none => fallbackUrl e

/-- The contribution of one feed element to the catalog (the loop body of
`get_promotions`): skipped unless it is a zero-discount game with a
resolvable URL. -/
def catalogEntry (e : FeedElement) : Option PromotionGame :=
  if isDiscountGame e then
    (resolveUrl e).map (fun url => ⟨e.namespaceId, e.title, url⟩)
  else none

/-- The loop of `get_promotions` over the parsed feed elements. -/
def getPromotions : List FeedElement → List PromotionGame
  | [] => []
  | e :: rest =>
    if isDiscountGame e then
      match resolveUrl e with
      | some url => ⟨e.namespaceId, e.title, url⟩ :: getPromotions rest
      | none => getPromotions rest
    else getPromotions rest

/-- Stated from the spec's words: some entry of the nested
`promotions.promotionalOffers[0].promotionalOffers` array has
`discountPercentage` equal to 0. -/
def specHasZeroDiscount (e : FeedElement) : Prop :=
  ∃ pf, e.promotions = some pf ∧
    ∃ tier, pf.promotionalOffers.head? = some tier ∧
      ∃ o ∈ tier.promotionalOffers, o.discountSetting.discountPercentage = 0

theorem isDiscountGame_iff (e : FeedElement) :
    isDiscountGame e = true ↔ specHasZeroDiscount e := by
  unfold isDiscountGame specHasZeroDiscount
  cases hp : e.promotions with
  | none => simp
  | some pf =>
    cases ht : pf.promotionalOffers.head? with
    | none => simp [ht]
    | some tier =>
      simp only [ht, List.any_eq_true, Option.some.injEq, beq_iff_eq]
      constructor
      · rintro ⟨o, ho, hz⟩
        exact ⟨pf, rfl, tier, ht, o, ho, hz⟩
      · rintro ⟨pf', rfl, tier', ht', o, ho, hz⟩
        rw [ht, Option.some.injEq] at ht'
        subst ht'
        exact ⟨o, ho, hz⟩

theorem getPromotions_eq_filterMap (feed : List FeedElement) :
    getPromotions feed = feed.filterMap catalogEntry := by
  induction feed with
  | nil => rfl
  | cons e rest ih =>
    unfold getPromotions catalogEntry
    rw [List.filterMap_cons]
    by_cases hd : isDiscountGame e
    · rw [if_pos hd, if_pos hd]
      cases hu : resolveUrl e with
      | none => simpa using ih
      | some url => simpa using ih
    · rw [if_neg hd, if_neg hd]
      exact ih

/-- C4: an element contributes to the catalog iff some nested
promotional-offer entry has zero `discountPercentage` and its URL resolves;
the URL prefers `offerMappings[0].pageSlug`, falls back to a non-empty
top-level `productSlug`, and otherwise the element is excluded. -/
theorem catalog_inclusion_and_url_resolution (feed : List FeedElement) :
    getPromotions feed = feed.filterMap catalogEntry ∧
    (∀ e : FeedElement,
      (∃ pg, catalogEntry e = some pg) ↔
        (specHasZeroDiscount e ∧ resolveUrl e ≠ none)) ∧
    (∀ e : FeedElement, ∀ slug,
      pageSlugOf e = some slug → resolveUrl e = some (buildProductUrl slug)) ∧
    (∀ e : FeedElement, ∀ slug, pageSlugOf e = none →
      e.productSlug = some slug → slug ≠ "" →
      resolveUrl e = some (buildProductUrl slug)) ∧
    (∀ e : FeedElement, pageSlugOf e = none →
      (∀ s, e.productSlug = some s → s = "") →
      resolveUrl e = none ∧ catalogEntry e = none) := by
  refine ⟨getPromotions_eq_filterMap feed, ?_, ?_, ?_, ?_⟩
  · intro e
    unfold catalogEntry
    by_cases hd : isDiscountGame e
    · rw [if_pos hd]
      cases hu : resolveUrl e with
      | none => simp [isDiscountGame_iff e, hu]
      | some url =>
        simp only [Option.map_some', hu]
        constructor
        · intro _
          exact ⟨(isDiscountGame_iff e).mp hd, by simp⟩
        · intro _
          exact ⟨_, rfl⟩
    · rw [if_neg hd]
      simp only [reduceCtorEq, exists_false, false_iff, not_and]
      intro hz
      exact absurd ((isDiscountGame_iff e).mpr hz) hd
  · intro e slug hps
    unfold resolveUrl
    rw [hps]
  · intro e slug hps hprod hne
    unfold resolveUrl fallbackUrl
    rw [hps, hprod]
    show (if (slug == "") = true then none
      else some (buildProductUrl slug)) = some (buildProductUrl slug)
    rw [if_neg (by simpa using hne)]
  · intro e hps hprod
    have hurl : resolveUrl e = none := by
      unfold resolveUrl fallbackUrl
      rw [hps]
      cases hp : e.productSlug with
      | none => rfl
      | some s =>
        have : s = "" := hprod s hp
        rw [this]
        rfl
    refine ⟨hurl, ?_⟩
    unfold catalogEntry
    by_cases hd : isDiscountGame e
    · rw [if_pos hd, hurl]; rfl
    · rw [if_neg hd]

/-- A concrete zero-discount feed element with `pageSlug = "abc"`. -/
def sampleElement : FeedElement :=
  { namespaceId := "ns1"
    title := "Sample"
    promotions := some ⟨[⟨[⟨⟨0⟩⟩]⟩]⟩
    offerMappings := some [⟨some "abc"⟩]
    productSlug := none }

/-- A concrete element with no `pageSlug` and a usable `productSlug`. -/
def sampleElementFallback : FeedElement :=
  { namespaceId := "ns2"
    title := "Sample2"
    promotions := some ⟨[⟨[⟨⟨0⟩⟩]⟩]⟩
    offerMappings := none
    productSlug := some "xyz" }

/-- A concrete element with no URL source at all. -/
def sampleElementNoUrl : FeedElement :=
  { namespaceId := "ns3"
    title := "Sample3"
    promotions := some ⟨[⟨[⟨⟨0⟩⟩]⟩]⟩
    offerMappings := none
    productSlug := none }

theorem catalog_inclusion_witness :
    resolveUrl sampleElement =
      some "https://store.epicgames.com/en-US/p/abc" ∧
    resolveUrl sampleElementFallback =
      some "https://store.epicgames.com/en-US/p/xyz" ∧
    resolveUrl sampleElementNoUrl = none ∧
    catalogEntry sampleElementNoUrl = none := by
  refine ⟨?_, ?_, ?_, ?_⟩
  · have h := (catalog_inclusion_and_url_resolution []).2.2.1 sampleElement
      "abc" (by decide)
    rw [h]
    decide
  · have h := (catalog_inclusion_and_url_resolution []).2.2.2.1
      sampleElementFallback "xyz" (by decide) (by decide) (by decide)
    rw [h]
    decide
  · exact ((catalog_inclusion_and_url_resolution []).2.2.2.2 sampleElementNoUrl
      (by decide) (by intro s hs; cases hs)).1
  · exact ((catalog_inclusion_and_url_resolution []).2.2.2.2 sampleElementNoUrl
      (by decide) (by intro s hs; cases hs)).2

/-- Containment of one character list in another, Python's `in` on strings. -/
def listInfixOf (needle : List Char) : List Char → Bool
  | [] => needle.isEmpty
  | c :: rest => needle.isPrefixOf (c :: rest) || listInfixOf needle rest

/-- Python `needle in hay` for strings. -/
def strContains (hay needle : String) : Bool :=
  listInfixOf needle.data hay.data

/-- The branch taken in `add_promotion_to_cart` for one purchase-control
label. -/
inductive CtaBranch
  | skipCta
  | instant
  | cart
deriving DecidableEq, Repr

/-- The branch structure of `add_promotion_to_cart` steps 3–4 on the
purchase-control label:
`if "Buy Now" in s or ("Get" not in s and "Add To Cart" not in s): continue`,
then `if "Get" in text: ... elif "Add To Cart" in text: ...` (the label is
read twice from the same control and is stable in this model). -/
def ctaBranch (label : String) : CtaBranch :=
  if strContains label "Buy Now" ||
      (!strContains label "Get" && !strContains label "Add To Cart") then
    .skipCta
  else if strContains label "Get" then .instant
  else if strContains label "Add To Cart" then .cart
  else .skipCta

/-- Observable per-item events of the `add_promotion_to_cart` loop. -/
inductive IEvent
  | skipInLibrary
  | skipNoButton
  | skipUnsupported
  | clickCta
  | instantCheckoutRun
  | waitViewInCart
  | markPending
  | branchError
deriving DecidableEq, Repr

/-- One product page as observed by the loop: library state, purchase-control
label (`none` models the button failing to resolve in time), and whether the
step-4 interaction raises. -/
structure PageItem where
  inLibrary : Bool
  ctaLabel : Option String
  branchFails : Bool
deriving DecidableEq, Repr

/-- The loop body of `add_promotion_to_cart` for one URL: returns the emitted
events and whether this item marked pending cart items. -/
def itemStep (it : PageItem) : List IEvent × Bool :=
  if it.inLibrary then ([.skipInLibrary], false)
  else
    match it.ctaLabel with
    | none => ([.skipNoButton], false)
    | some label =>
      match ctaBranch label with
      | .skipCta => ([.skipUnsupported], false)
      | .instant =>
        if it.branchFails then ([.branchError], false)
        else ([.clickCta, .instantCheckoutRun], false)
      | .cart =>
        if it.branchFails then ([.branchError], false)
        else ([.clickCta, .waitViewInCart, .markPending], true)

/-- The `add_promotion_to_cart` loop: `has_pending_cart_items` starts False
and is the disjunction of the per-item flags. -/
def addPromotionToCart : List PageItem → List IEvent × Bool
  | [] => ([], false)
  | it :: rest =>
    ((itemStep it).1 ++ (addPromotionToCart rest).1,
      (itemStep it).2 || (addPromotionToCart rest).2)

/-- C5: the purchase-control label determines the branch — "Buy Now" or
neither "Get" nor "Add To Cart" skips the item; otherwise "Get" takes the
instant-checkout path; otherwise "Add To Cart" clicks the control and marks
pending cart items; and an item that marks pending makes the loop return
True. -/
theorem cta_label_determines_branch :
    (∀ label : String,
      (ctaBranch label = .skipCta ↔
        strContains label "Buy Now" = true ∨
          (strContains label "Get" = false ∧
            strContains label "Add To Cart" = false)) ∧
      (ctaBranch label = .instant ↔
        strContains label "Buy Now" = false ∧
          strContains label "Get" = true) ∧
      (ctaBranch label = .cart ↔
        strContains label "Buy Now" = false ∧
          strContains label "Get" = false ∧
          strContains label "Add To Cart" = true)) ∧
    (∀ (it : PageItem) (label : String),
      it.inLibrary = false → it.ctaLabel = some label → it.branchFails = false →
      (ctaBranch label = .skipCta → itemStep it = ([.skipUnsupported], false)) ∧
      (ctaBranch label = .instant →
        itemStep it = ([.clickCta, .instantCheckoutRun], false)) ∧
      (ctaBranch label = .cart →
        itemStep it = ([.clickCta, .waitViewInCart, .markPending], true))) ∧
    (∀ (items : List PageItem) (it : PageItem),
      it ∈ items → (itemStep it).2 = true →
      (addPromotionToCart items).2 = true) := by
  refine ⟨?_, ?_, ?_⟩
  · intro label
    unfold ctaBranch
    cases hbn : strContains label "Buy Now" <;>
      cases hg : strContains label "Get" <;>
        cases hac : strContains label "Add To Cart" <;>
          simp
  · intro it label hlib hcta hfail
    unfold itemStep
    rw [hlib, hcta]
    refine ⟨?_, ?_, ?_⟩ <;> intro hb <;> simp [hfail, hb]
  · intro items it hmem hpend
    induction items with
    | nil => cases hmem
    | cons a rest ih =>
      unfold addPromotionToCart
      rcases List.mem_cons.mp hmem with rfl | hmem'
      · rw [hpend]
        rfl
      · rw [ih hmem']
        simp

theorem cta_label_branch_witness :
    ctaBranch "Add To Cart" = .cart ∧
    itemStep ⟨false, some "Add To Cart", false⟩ =
      ([.clickCta, .waitViewInCart, .markPending], true) ∧
    (addPromotionToCart [⟨false, some "Add To Cart", false⟩]).2 = true := by
  refine ⟨by decide, ?_, ?_⟩
  · exact (cta_label_determines_branch.2.1 ⟨false, some "Add To Cart", false⟩
      "Add To Cart" rfl rfl rfl).2.2 (by decide)
  · exact cta_label_determines_branch.2.2 [⟨false, some "Add To Cart", false⟩]
      ⟨false, some "Add To Cart", false⟩ (List.mem_singleton.mpr rfl)
      (by decide)

/-- One offer card as seen by a `_empty_cart` pass: whether it carries the
`Free` marker, whether its `Move to wishlist` control exists (a missing
control makes `query_selector` return None), and whether clicking that
control raises a `TimeoutError`. -/
structure CartCard where
  isFree : Bool
  wishlistPresent : Bool
  clickTimeout : Bool
deriving DecidableEq, Repr

/-- The outcome of scanning the offer cards of one `_empty_cart` pass. -/
inductive PassOutcome
  | done (hasPaid : Bool)
  | timeout
  | attrErr
deriving DecidableEq, Repr

/-- The card loop of one `_empty_cart` pass, carrying `has_paid_free`:
a non-free card sets the flag, then `wishlist_btn.click()` — an
`AttributeError` when the control is missing (None), a `TimeoutError`
when the click times out. -/
def processCards : List CartCard → Bool → PassOutcome
  | [], acc => .done acc
  | c :: rest, acc =>
    if c.isFree then processCards rest acc
    else if !c.wishlistPresent then .attrErr
    else if c.clickTimeout then .timeout
    else processCards rest true

/-- One full scan of the visible offer cards (`has_paid_free` starts False). -/
def processPass (cards : List CartCard) : PassOutcome :=
  processCards cards false

/-- The value produced by `_empty_cart`: a normal return (`True`/`False`) or
a propagated `AttributeError`. -/
inductive ECResult
  | ret (b : Bool)
  | attrErr
deriving DecidableEq, Repr

/-- Method `_empty_cart(page, wait_rerender)`: scan the cards of pass `k`; a
`TimeoutError` anywhere in the pass is caught and returns False; an
`AttributeError` propagates; if a paid item was found and the budget is
non-zero (Python truthiness), wait, decrement, recurse on the re-rendered
cart; otherwise return True. -/
def emptyCart (passes : Nat → List CartCard) : Nat → Nat → ECResult
  | k, 0 =>
    match processPass (passes k) with
    | .attrErr => .attrErr
    | .timeout => .ret false
    | .done _ => .ret true
  | k, b + 1 =>
    match processPass (passes k) with
    | .attrErr => .attrErr
    | .timeout => .ret false
    | .done hasPaid =>
      if hasPaid then emptyCart passes (k + 1) b
      else .ret true

theorem emptyCart_zero (passes : Nat → List CartCard) (k : Nat) :
    emptyCart passes k 0 =
      match processPass (passes k) with
      | .attrErr => .attrErr
      | .timeout => .ret false
      | .done _ => .ret true := rfl

theorem emptyCart_succ (passes : Nat → List CartCard) (k b : Nat) :
    emptyCart passes k (b + 1) =
      match processPass (passes k) with
      | .attrErr => .attrErr
      | .timeout => .ret false
      | .done hasPaid =>
        if hasPaid then emptyCart passes (k + 1) b
        else .ret true := rfl

theorem processCards_attrErr (cards : List CartCard) (acc : Bool)
    (hnt : ∀ c ∈ cards, c.clickTimeout = false) :
    processCards cards acc = .attrErr ↔
      ∃ c ∈ cards, c.isFree = false ∧ c.wishlistPresent = false := by
  induction cards generalizing acc with
  | nil => simp [processCards]
  | cons c rest ih =>
    have hct : c.clickTimeout = false := hnt c (List.mem_cons_self c rest)
    have hnt' : ∀ d ∈ rest, d.clickTimeout = false :=
      fun d hd => hnt d (List.mem_cons_of_mem c hd)
    unfold processCards
    by_cases hf : c.isFree
    · rw [if_pos hf, ih acc hnt']
      constructor
      · rintro ⟨d, hd, hfd, hwd⟩
        exact ⟨d, List.mem_cons_of_mem c hd, hfd, hwd⟩
      · rintro ⟨d, hd, hfd, hwd⟩
        rcases List.mem_cons.mp hd with rfl | hd'
        · exact absurd hf (by rw [hfd]; exact Bool.false_ne_true)
        · exact ⟨d, hd', hfd, hwd⟩
    · rw [if_neg hf]
      have hf' : c.isFree = false := Bool.eq_false_iff.mpr hf
      by_cases hw : c.wishlistPresent
      · rw [if_neg (by simp [hw]), if_neg (by simp [hct]), ih true hnt']
        constructor
        · rintro ⟨d, hd, hfd, hwd⟩
          exact ⟨d, List.mem_cons_of_mem c hd, hfd, hwd⟩
        · rintro ⟨d, hd, hfd, hwd⟩
          rcases List.mem_cons.mp hd with rfl | hd'
          · exact absurd hw (by rw [hwd]; exact Bool.false_ne_true)
          · exact ⟨d, hd', hfd, hwd⟩
      · rw [if_pos (by simp [Bool.eq_false_iff.mpr hw])]
        simp only [true_iff]
        exact ⟨c, List.mem_cons_self c rest, hf', Bool.eq_false_iff.mpr hw⟩

/-- C9: a missing `Move to wishlist` control on a reached non-free card makes
`_empty_cart` propagate an uncaught exception instead of returning; only
`TimeoutError`s raised during a pass are converted into the soft-failure
return False; and under no click timeouts, a pass raises exactly when some
non-free card lacks the control. -/
theorem emptycart_exception_taxonomy (passes : Nat → List CartCard)
    (k budget : Nat) (cards : List CartCard) :
    (processPass (passes k) = .attrErr →
      emptyCart passes k budget = .attrErr) ∧
    (processPass (passes k) = .timeout →
      emptyCart passes k budget = .ret false) ∧
    (emptyCart passes k budget = .ret false →
      ∃ j, processPass (passes j) = .timeout) ∧
    ((∀ c ∈ cards, c.clickTimeout = false) →
      (processPass cards = .attrErr ↔
        ∃ c ∈ cards, c.isFree = false ∧ c.wishlistPresent = false)) := by
  refine ⟨?_, ?_, ?_, fun hnt => processCards_attrErr cards false hnt⟩
  · intro h
    cases budget with
    | zero => rw [emptyCart_zero, h]
    | succ b => rw [emptyCart_succ, h]
  · intro h
    cases budget with
    | zero => rw [emptyCart_zero, h]
    | succ b => rw [emptyCart_succ, h]
  · induction budget generalizing k with
    | zero =>
      intro hret
      rw [emptyCart_zero] at hret
      cases hp : processPass (passes k) with
      | attrErr => rw [hp] at hret; cases hret
      | timeout => exact ⟨k, hp⟩
      | done hasPaid =>
        rw [hp] at hret
        simp at hret
    | succ b ih =>
      intro hret
      rw [emptyCart_succ] at hret
      cases hp : processPass (passes k) with
      | attrErr => rw [hp] at hret; cases hret
      | timeout => exact ⟨k, hp⟩
      | done hasPaid =>
        rw [hp] at hret
        cases hasPaid with
        | false => simp at hret
        | true =>
          simp at hret
          exact ih (k + 1) hret

/-- Every pass sees one non-free card whose wishlist control is missing. -/
def passesNoWishlist : Nat → List CartCard := fun _ => [⟨false, false, false⟩]

/-- Every pass sees one non-free card whose wishlist click times out. -/
def passesClickTimeout : Nat → List CartCard := fun _ => [⟨false, true, true⟩]

theorem emptycart_exception_taxonomy_witness :
    emptyCart passesNoWishlist 0 30 = .attrErr ∧
    emptyCart passesClickTimeout 0 30 = .ret false := by
  constructor
  · exact (emptycart_exception_taxonomy passesNoWishlist 0 30 []).1 (by decide)
  · exact (emptycart_exception_taxonomy passesClickTimeout 0 30 []).2.1
      (by decide)

/-- Whether a browser interaction step completes or raises. -/
inductive StepOutcome
  | ok
  | err
deriving DecidableEq, Repr

/-- The environment of one `_purchase_free_game` invocation: the cart passes
seen by `_empty_cart` and the outcome of each interaction step. -/
structure CartAttempt where
  passes : Nat → List CartCard
  checkoutClick : StepOutcome
  agreeLicense : StepOutcome
  container : StepOutcome
  ukConfirm : StepOutcome
  challenge : StepOutcome

/-- Exceptions that `_purchase_free_game` lets propagate to its caller. -/
inductive PExn
  | fromEmptyCart
  | fromCheckoutClick
  | fromLicense
deriving DecidableEq, Repr

/-- The result of `_purchase_free_game`: normal return, a propagated
exception, or divergence (the unbounded self-recursion never succeeding). -/
inductive PResult
  | success
  | raised (e : PExn)
  | diverged
deriving DecidableEq, Repr

/-- Observable events of the cart-checkout sequence. -/
inductive PEvent
  | navCart
  | emptyCartCall
  | clickCheckout
  | license
  | resolveContainer
  | ukConfirmClick
  | challengeWaitStep
  | reload
deriving DecidableEq, Repr

/-- Method `_purchase_free_game`: navigate to the cart, run `_empty_cart` (its
returned value is discarded; a propagated exception aborts), click
`Check Out`, `_agree_license` — both outside the try block — then the try
block (resolve the purchase container, UK confirm, challenge gate) whose
`except Exception` reloads and re-invokes the whole sequence. The attempt
list supplies one environment per invocation; an empty list models the
unbounded recursion running out of modelled attempts. -/
def purchaseFreeGame : List CartAttempt → List PEvent × PResult
  | [] => ([], .diverged)
  | a :: rest =>
    match emptyCart a.passes 0 30 with
    | .attrErr => ([.navCart, .emptyCartCall], .raised .fromEmptyCart)
    | .ret _ =>
      if a.checkoutClick = .err then
        ([.navCart, .emptyCartCall, .clickCheckout], .raised .fromCheckoutClick)
      else if a.agreeLicense = .err then
        ([.navCart, .emptyCartCall, .clickCheckout, .license],
          .raised .fromLicense)
      else if a.container = .err then
        ([.navCart, .emptyCartCall, .clickCheckout, .license,
            .resolveContainer, .reload] ++ (purchaseFreeGame rest).1,
          (purchaseFreeGame rest).2)
      else if a.ukConfirm = .err then
        ([.navCart, .emptyCartCall, .clickCheckout, .license,
            .resolveContainer, .ukConfirmClick, .reload]
            ++ (purchaseFreeGame rest).1,
          (purchaseFreeGame rest).2)
      else if a.challenge = .err then
        ([.navCart, .emptyCartCall, .clickCheckout, .license,
            .resolveContainer, .ukConfirmClick, .challengeWaitStep, .reload]
            ++ (purchaseFreeGame rest).1,
          (purchaseFreeGame rest).2)
      else
        ([.navCart, .emptyCartCall, .clickCheckout, .license,
            .resolveContainer, .ukConfirmClick, .challengeWaitStep],
          .success)

/-- A cart attempt whose `Check Out` click raises; everything else succeeds. -/
def clickFailAttempt : CartAttempt :=
  { passes := fun _ => []
    checkoutClick := .err
    agreeLicense := .ok
    container := .ok
    ukConfirm := .ok
    challenge := .ok }

/-- C6 counterexample: an exception in step 3 (the checkout-initiation click)
does NOT cause a page reload and re-invocation — the click is outside the
try block, so the exception propagates to the caller and the sequence ends
after a single pass. This refutes "every exception raised in any of steps
3–7 causes a page reload followed by re-invocation". -/
theorem checkout_click_error_not_retried :
    purchaseFreeGame [clickFailAttempt] =
      ([.navCart, .emptyCartCall, .clickCheckout], .raised .fromCheckoutClick)
    ∧ PEvent.reload ∉ (purchaseFreeGame [clickFailAttempt]).1 := by
  constructor
  · rfl
  · decide

/-- C6 amended: exceptions in steps 5–7 (payment-container resolution, the
UK confirm-order click, the challenge gate) cause a reload followed by
re-invocation of the whole sequence; exceptions in step 3 (checkout click)
or step 4 (license acceptance) propagate to the caller with no reload and no
retry; and every invocation starts from step 1 (cart navigation). -/
theorem purchase_retry_scope (a : CartAttempt) (rest : List CartAttempt)
    (b : Bool) (hec : emptyCart a.passes 0 30 = .ret b) :
    (a.checkoutClick = .ok → a.agreeLicense = .ok →
      (a.container = .err ∨ a.ukConfirm = .err ∨ a.challenge = .err) →
      ∃ pre, purchaseFreeGame (a :: rest) =
          (pre ++ (purchaseFreeGame rest).1, (purchaseFreeGame rest).2) ∧
        PEvent.reload ∈ pre) ∧
    (a.checkoutClick = .err →
      purchaseFreeGame (a :: rest) =
        ([.navCart, .emptyCartCall, .clickCheckout],
          .raised .fromCheckoutClick)) ∧
    (a.checkoutClick = .ok → a.agreeLicense = .err →
      purchaseFreeGame (a :: rest) =
        ([.navCart, .emptyCartCall, .clickCheckout, .license],
          .raised .fromLicense)) ∧
    (∀ (a2 : CartAttempt) (rest2 : List CartAttempt),
      ((purchaseFreeGame (a2 :: rest2)).1).head? = some .navCart) := by
  refine ⟨?_, ?_, ?_, ?_⟩
  · intro h1 h2 h3
    cases hcont : a.container with
    | err =>
      refine ⟨[.navCart, .emptyCartCall, .clickCheckout, .license,
        .resolveContainer, .reload], ?_, by decide⟩
      simp only [purchaseFreeGame, hec, h1, h2, hcont]
      simp
    | ok =>
      cases huk : a.ukConfirm with
      | err =>
        refine ⟨[.navCart, .emptyCartCall, .clickCheckout, .license,
          .resolveContainer, .ukConfirmClick, .reload], ?_, by decide⟩
        simp only [purchaseFreeGame, hec, h1, h2, hcont, huk]
        simp
      | ok =>
        cases hch : a.challenge with
        | err =>
          refine ⟨[.navCart, .emptyCartCall, .clickCheckout, .license,
            .resolveContainer, .ukConfirmClick, .challengeWaitStep, .reload],
            ?_, by decide⟩
          simp only [purchaseFreeGame, hec, h1, h2, hcont, huk, hch]
          simp
        | ok =>
          rcases h3 with h | h | h
          · rw [hcont] at h; cases h
          · rw [huk] at h; cases h
          · rw [hch] at h; cases h
  · intro h1
    simp only [purchaseFreeGame, hec, h1]
    simp
  · intro h1 h2
    simp only [purchaseFreeGame, hec, h1, h2]
    simp
  · intro a2 rest2
    simp only [purchaseFreeGame]
    cases emptyCart a2.passes 0 30 with
    | attrErr => rfl
    | ret b2 =>
      by_cases hc : a2.checkoutClick = .err
      · simp [hc]
      · by_cases hl : a2.agreeLicense = .err
        · simp [hc, hl]
        · by_cases hco : a2.container = .err
          · simp [hc, hl, hco]
          · by_cases hu : a2.ukConfirm = .err
            · simp [hc, hl, hco, hu]
            · by_cases hch : a2.challenge = .err
              · simp [hc, hl, hco, hu, hch]
              · simp [hc, hl, hco, hu, hch]

/-- A cart attempt whose challenge gate fails; cart empty. -/
def challengeFailAttempt : CartAttempt :=
  { passes := fun _ => []
    checkoutClick := .ok
    agreeLicense := .ok
    container := .ok
    ukConfirm := .ok
    challenge := .err }

theorem purchase_retry_scope_witness :
    ∃ pre,
      purchaseFreeGame [challengeFailAttempt, clickFailAttempt] =
        (pre ++ (purchaseFreeGame [clickFailAttempt]).1,
          (purchaseFreeGame [clickFailAttempt]).2) ∧
      PEvent.reload ∈ pre :=
  (purchase_retry_scope challengeFailAttempt [clickFailAttempt] true
      (by rfl)).1 rfl rfl (Or.inr (Or.inr rfl))

/-- Every pass sees one non-free card that is wishlisted successfully but the
cart re-renders with the paid item still present. -/
def paidPasses : Nat → List CartCard := fun _ => [⟨false, true, false⟩]

/-- C1 counterexample: when the iteration budget reaches 0 while a paid line
item is still found, `_empty_cart` returns True — the very success value —
because `if has_paid_free and wait_rerender:` is falsy at `wait_rerender == 0`
and the function falls through to `return True`. This refutes "returns a soft
failure result (distinct from the success result True)". -/
theorem budget_exhaustion_returns_success_value :
    processPass (paidPasses 30) = .done true ∧
    emptyCart paidPasses 0 30 = .ret true := by
  constructor
  · rfl
  · rfl

/-- A cart attempt in which every step succeeds, over an unreconcilable cart. -/
def successAttempt : CartAttempt :=
  { passes := paidPasses
    checkoutClick := .ok
    agreeLicense := .ok
    container := .ok
    ukConfirm := .ok
    challenge := .ok }

/-- C1 amended: when the budget is exhausted while every pass still finds a
paid item, `_empty_cart` returns True (the same value as success, not a
distinct soft failure); and whenever `_empty_cart` returns a value at all,
`_purchase_free_game` discards it and proceeds to the checkout click — the
sequence is identical whatever the returned value is. -/
theorem emptycart_result_never_blocks_checkout :
    (∀ (passes : Nat → List CartCard),
      (∀ i, processPass (passes i) = .done true) →
      ∀ k budget, emptyCart passes k budget = .ret true) ∧
    (∀ (a : CartAttempt) (rest : List CartAttempt) (b : Bool),
      emptyCart a.passes 0 30 = .ret b →
      PEvent.clickCheckout ∈ (purchaseFreeGame (a :: rest)).1) ∧
    (∀ (a : CartAttempt) (p1 p2 : Nat → List CartCard)
      (rest : List CartAttempt) (b1 b2 : Bool),
      emptyCart p1 0 30 = .ret b1 → emptyCart p2 0 30 = .ret b2 →
      purchaseFreeGame ({ a with passes := p1 } :: rest) =
        purchaseFreeGame ({ a with passes := p2 } :: rest)) := by
  refine ⟨?_, ?_, ?_⟩
  · intro passes h k budget
    induction budget generalizing k with
    | zero => rw [emptyCart_zero, h k]
    | succ b ih =>
      rw [emptyCart_succ, h k]
      simp only [if_true]
      exact ih (k + 1)
  · intro a rest b hec
    by_cases hc : a.checkoutClick = .err
    · simp [purchaseFreeGame, hec, hc]
    · by_cases hl : a.agreeLicense = .err
      · simp [purchaseFreeGame, hec, hc, hl]
      · by_cases hco : a.container = .err
        · simp [purchaseFreeGame, hec, hc, hl, hco]
        · by_cases hu : a.ukConfirm = .err
          · simp [purchaseFreeGame, hec, hc, hl, hco, hu]
          · by_cases hch : a.challenge = .err
            · simp [purchaseFreeGame, hec, hc, hl, hco, hu, hch]
            · simp [purchaseFreeGame, hec, hc, hl, hco, hu, hch]
  · intro a p1 p2 rest b1 b2 h1 h2
    simp only [purchaseFreeGame, h1, h2]

theorem emptycart_result_never_blocks_checkout_witness :
    emptyCart paidPasses 0 30 = .ret true ∧
    PEvent.clickCheckout ∈ (purchaseFreeGame [successAttempt]).1 ∧
    purchaseFreeGame [successAttempt] =
      purchaseFreeGame [{ successAttempt with passes := passesClickTimeout }] := by
  refine ⟨?_, ?_, ?_⟩
  · exact emptycart_result_never_blocks_checkout.1 paidPasses (fun i => rfl) 0 30
  · exact emptycart_result_never_blocks_checkout.2.1 successAttempt [] true rfl
  · exact emptycart_result_never_blocks_checkout.2.2 successAttempt paidPasses
      passesClickTimeout [] true false rfl rfl

/-- A failure raised by one top-level checkout attempt; the payload
distinguishes distinct exception objects. `timeoutFailure` is the
`playwright TimeoutError` class, `otherFailure` anything else. -/
inductive CheckoutFailure
  | timeoutFailure (e : Nat)
  | otherFailure (e : Nat)
deriving DecidableEq, Repr

/-- The outcome of one attempt of the decorated `collect_weekly_games`. -/
inductive AttemptResult
  | ok
  | raises (f : CheckoutFailure)
deriving DecidableEq, Repr

/-- Predicate `retry_if_exception_type(TimeoutError)`. -/
def isTimeoutClass : CheckoutFailure → Bool
  | .timeoutFailure _ => true
  | .otherFailure _ => false

/-- What the decorated call delivers to its caller. -/
inductive RetryOutcome
  | success
  | raised (f : CheckoutFailure)
deriving DecidableEq, Repr

/-- The tenacity decorator on `collect_weekly_games`:
`@retry(retry=retry_if_exception_type(TimeoutError), stop=stop_after_attempt(2),
reraise=True)` — retry only timeout-class failures, at most 2 attempts, and
with `reraise` the last attempt's exception is re-raised unwrapped. Returns
the delivered outcome and the number of attempts made. -/
def collectWeeklyRetry (attempt : Nat → AttemptResult) : RetryOutcome × Nat :=
  match attempt 1 with
  | .ok => (.success, 1)
  | .raises f =>
    if isTimeoutClass f then
      match attempt 2 with
      | .ok => (.success, 2)
      | .raises f2 => (.raised f2, 2)
    else (.raised f, 1)

/-- Attempt 1 and attempt 2 raise two distinct timeout-class failures. -/
def twoTimeoutAttempts : Nat → AttemptResult :=
  fun n => if n = 1 then .raises (.timeoutFailure 1) else .raises (.timeoutFailure 2)

/-- C7 counterexample: when both attempts fail with distinct timeout-class
failures, tenacity (`reraise=True`, `stop_after_attempt(2)`) re-raises the
SECOND attempt's failure, not the original first-attempt failure. -/
theorem final_not_original_failure_reraised :
    collectWeeklyRetry twoTimeoutAttempts =
      (.raised (.timeoutFailure 2), 2) ∧
    (collectWeeklyRetry twoTimeoutAttempts).1 ≠
      .raised (.timeoutFailure 1) := by
  constructor
  · rfl
  · decide

/-- C7 amended: the top-level checkout is retried only on timeout-class
failures with at most 2 attempts total; a timeout on attempt 1 followed by
success on attempt 2 succeeds with exactly 2 attempts; when both attempts
fail, the failure raised by the final (second) attempt is re-raised unchanged
to the caller; non-timeout failures are never retried. -/
theorem retry_policy_two_attempts (attempt : Nat → AttemptResult) :
    (attempt 1 = .ok → collectWeeklyRetry attempt = (.success, 1)) ∧
    (∀ e, attempt 1 = .raises (.timeoutFailure e) → attempt 2 = .ok →
      collectWeeklyRetry attempt = (.success, 2)) ∧
    (∀ e f2, attempt 1 = .raises (.timeoutFailure e) →
      attempt 2 = .raises f2 →
      collectWeeklyRetry attempt = (.raised f2, 2)) ∧
    (∀ f, attempt 1 = .raises f → isTimeoutClass f = false →
      collectWeeklyRetry attempt = (.raised f, 1)) ∧
    (collectWeeklyRetry attempt).2 ≤ 2 := by
  refine ⟨?_, ?_, ?_, ?_, ?_⟩
  · intro h
    simp [collectWeeklyRetry, h]
  · intro e h1 h2
    simp [collectWeeklyRetry, h1, h2, isTimeoutClass]
  · intro e f2 h1 h2
    simp [collectWeeklyRetry, h1, h2, isTimeoutClass]
  · intro f h1 h2
    simp [collectWeeklyRetry, h1, h2]
  · unfold collectWeeklyRetry
    cases attempt 1 with
    | ok => simp
    | raises f =>
      by_cases ht : isTimeoutClass f
      · simp only [ht, if_true]
        cases attempt 2 <;> simp
      · simp [ht]

/-- Attempt 1 raises a timeout-class failure, attempt 2 succeeds. -/
def timeoutThenOk : Nat → AttemptResult :=
  fun n => if n = 1 then .raises (.timeoutFailure 7) else .ok

theorem retry_policy_two_attempts_witness :
    collectWeeklyRetry timeoutThenOk = (.success, 2) :=
  (retry_policy_two_attempts timeoutThenOk).2.1 7 rfl rfl

/-- The environment of one `_handle_instant_checkout` run: whether the
payment container resolves, whether the challenge gate succeeds, whether the
payment button is still visible after the challenge, and whether it becomes
hidden within the 20s success wait. -/
structure InstantEnv where
  containerOk : Bool
  challengeOk : Bool
  stillVisibleAfterChallenge : Bool
  hiddenInTime : Bool
deriving DecidableEq, Repr

/-- Observable events of the instant-checkout flow. -/
inductive CEvent
  | clickPayment
  | challengeWaitInstant
  | logSuccessInstant
  | logErrorTimeout
  | logInstantFailed
  | reloadPage
deriving DecidableEq, Repr

/-- The try-block body of `_handle_instant_checkout`: resolve the container
(raises on failure), click, challenge gate (raises on failure), re-click if
the button is still visible, then wait for it to hide (a timeout here is
absorbed by the inner try and merely logged). -/
def instantBody (env : InstantEnv) : Except Unit (List CEvent) :=
  if !env.containerOk then .error ()
  else if !env.challengeOk then .error ()
  else
    let clicks := if env.stillVisibleAfterChallenge then
        [CEvent.clickPayment, CEvent.challengeWaitInstant, CEvent.clickPayment]
      else [CEvent.clickPayment, CEvent.challengeWaitInstant]
    if env.hiddenInTime then .ok (clicks ++ [.logSuccessInstant])
    else .ok (clicks ++ [.logErrorTimeout])

/-- Method `_handle_instant_checkout` wraps its whole body in
`except Exception: log; page.reload()` — every exception is caught and the
coroutine returns normally. -/
def handleInstantCheckout (env : InstantEnv) : Except Unit (List CEvent) :=
  match instantBody env with
  | .ok evs => .ok evs
  | .error _ => .ok [CEvent.logInstantFailed, CEvent.reloadPage]

/-- Observable events of the `collect_weekly_games` body. -/
inductive WEvent
  | logSuccessNoCart
  | waitSuccessUrl
  | logCartSuccess
  | logCartWarn
deriving DecidableEq, Repr

/-- The result of the `collect_weekly_games` body. -/
inductive WResult
  | success
  | raisedW (e : PExn)
  | divergedW
deriving DecidableEq, Repr

/-- The body of `collect_weekly_games` after `add_promotion_to_cart`: when
cart items are pending, run `_purchase_free_game` and wait for the success
URL (timeout degrades to a warning); otherwise log success and return —
no URL check. -/
def collectWeeklyBody (hasCart : Bool) (cart : List PEvent × PResult)
    (urlReached : Bool) : List WEvent × WResult :=
  if hasCart then
    match cart.2 with
    | .success =>
      if urlReached then ([.waitSuccessUrl, .logCartSuccess], .success)
      else ([.waitSuccessUrl, .logCartWarn], .success)
    | .raised e => ([], .raisedW e)
    | .diverged => ([], .divergedW)
  else ([.logSuccessNoCart], .success)

/-- C10: when no item was routed to the cart path, `collect_weekly_games`
returns success and logs it without any success-URL wait; every exception of
the instant-checkout body is caught inside `_handle_instant_checkout` (which
ends with a reload), so the instant path always returns normally and never
marks pending cart items. -/
theorem no_cart_items_reports_success (items : List PageItem)
    (cart : List PEvent × PResult) (urlReached : Bool) :
    ((addPromotionToCart items).2 = false →
      collectWeeklyBody (addPromotionToCart items).2 cart urlReached =
        ([.logSuccessNoCart], .success) ∧
      WEvent.waitSuccessUrl ∉
        (collectWeeklyBody (addPromotionToCart items).2 cart urlReached).1) ∧
    (∀ env : InstantEnv, ∃ evs, handleInstantCheckout env = .ok evs) ∧
    (∀ env : InstantEnv, instantBody env = .error () →
      handleInstantCheckout env =
        .ok [CEvent.logInstantFailed, CEvent.reloadPage]) ∧
    (∀ (it : PageItem) (label : String), it.ctaLabel = some label →
      ctaBranch label = .instant → (itemStep it).2 = false) := by
  refine ⟨?_, ?_, ?_, ?_⟩
  · intro h
    rw [h]
    refine ⟨rfl, ?_⟩
    intro hmem
    rw [show (collectWeeklyBody false cart urlReached).1 =
      [WEvent.logSuccessNoCart] from rfl] at hmem
    simp at hmem
  · intro env
    unfold handleInstantCheckout
    cases instantBody env with
    | ok evs => exact ⟨evs, rfl⟩
    | error u => exact ⟨_, rfl⟩
  · intro env h
    unfold handleInstantCheckout
    rw [h]
  · intro it label hcta hbr
    unfold itemStep
    by_cases hl : it.inLibrary
    · simp [hl]
    · cases hf : it.branchFails <;> simp [hl, hcta, hbr, hf]

theorem no_cart_items_reports_success_witness :
    collectWeeklyBody (addPromotionToCart [⟨true, none, false⟩]).2
        ([], .success) false = ([.logSuccessNoCart], .success) ∧
    handleInstantCheckout ⟨false, true, false, false⟩ =
      .ok [CEvent.logInstantFailed, CEvent.reloadPage] ∧
    (itemStep ⟨false, some "Get", false⟩).2 = false := by
  refine ⟨?_, ?_, ?_⟩
  · exact ((no_cart_items_reports_success [⟨true, none, false⟩] ([], .success)
      false).1 (by decide)).1
  · exact (no_cart_items_reports_success [] ([], .success) false).2.2.1
      ⟨false, true, false, false⟩ rfl
  · exact (no_cart_items_reports_success [] ([], .success) false).2.2.2
      ⟨false, some "Get", false⟩ "Get" rfl (by decide)

end EpicGamesService
